import Mathlib

/-!
Verification of the order-tracking ledger of the SlicerNeuropacs module
(`NeuropacsScriptedModule.py`).  The widget state keeps an in-memory map
`neuropacsOrderMap : orderId → patientId`, persisted as a flat JSON object
at `neuropacsConfigPath`.  We embed the ledger-relevant methods:
`create_config`, `configure_config`, `save_config`, `load_config`,
`storeNeuropacsOrder`, `getNeuropacsOrder`, `__deleteOrder`,
`__deleteExpiredOrders` and `populateOrderTable`.

File contents are abstracted to their parse status: `empty` is a
zero-length file (`os.path.getsize == 0`; `json.load` raises on it),
`valid entries` is a document that parses as a flat object of string keys
to string values (the only shape the module ever writes), `invalid` is a
nonzero-length document on which `json.load` raises.  The filesystem is a
partial map from paths to file contents; `saveCount` counts calls of
`save_config` (each call is exactly one write of the whole map).
-/

namespace Neuropacs

/-- Abstraction of the bytes stored at a path, by parse status. -/
inductive FileContent where
  | empty : FileContent
  | valid : List (String × String) → FileContent
  | invalid : FileContent
deriving DecidableEq, Repr

/-- Filesystem model: contents at each path, `none` when no file exists. -/
def FS : Type := String → Option FileContent

/-- Writing a file (mode `w`): replaces the contents at `p`. -/
def fsWrite (fs : FS) (p : String) (c : FileContent) : FS :=
  fun q => if q = p then some c else fs q

/-- The ledger-relevant state of `NeuropacsScriptedModuleWidget`. -/
structure WState where
  neuropacsOrderMap : List (String × String)
  neuropacsConfigPath : String
  fs : FS
  saveCount : Nat

/-- Python `dict.get k`: the keys of a dict are unique, so first match. -/
def mapLookup : List (String × String) → String → Option String
  | [], _ => none
  | (k', v) :: rest, k => if k' = k then some v else mapLookup rest k

/-- Python `d[k] = v`: overwrite in place when the key is present,
append otherwise. -/
def mapStore : List (String × String) → String → String → List (String × String)
  | [], k, v => [(k, v)]
  | (k', v') :: rest, k, v =>
      if k' = k then (k, v) :: rest else (k', v') :: mapStore rest k v

/-- Python `if k in d: del d[k]`: dict keys are unique, so deleting the
one entry with key `k` coincides with dropping every pair keyed `k`. -/
def mapErase (m : List (String × String)) (k : String) : List (String × String) :=
  m.filter (fun kv => kv.1 != k)

/-- `save_config`: `json.dump(self.neuropacsOrderMap)` into the file at
`self.neuropacsConfigPath` opened with mode `w` (full overwrite). -/
def save_config (st : WState) : WState :=
  { st with
    fs := fsWrite st.fs st.neuropacsConfigPath (FileContent.valid st.neuropacsOrderMap)
    saveCount := st.saveCount + 1 }

/-- `create_config`: set the map to the default config and dump it at `path`. -/
def create_config (path : String) (st : WState) : WState :=
  { st with
    neuropacsOrderMap := [("TEST", "TEST")]
    fs := fsWrite st.fs path (FileContent.valid [("TEST", "TEST")]) }

/-- Appending `{}` (json.dump in mode `a`): creates the file containing an
empty object when missing or zero-length, otherwise the concatenation of a
document with `\x7b\x7d` no longer parses. -/
def appendEmptyObject (fs : FS) (p : String) : FS :=
  match fs p with
  | none => fsWrite fs p (FileContent.valid [])
  | some FileContent.empty => fsWrite fs p (FileContent.valid [])
  | some _ => fsWrite fs p FileContent.invalid

/-- `load_config`: when the file at `path` exists, `json.load` it into the
map (raising, modeled as `Except.error`, when it does not parse — a
zero-length file also makes `json.load` raise); when it does not exist,
append an empty object at `self.neuropacsConfigPath` and leave the map
untouched. -/
def load_config (path : String) (st : WState) : Except Unit WState :=
  match st.fs path with
  | some (FileContent.valid entries) =>
      Except.ok { st with neuropacsOrderMap := entries }
  | some FileContent.empty => Except.error ()
  | some FileContent.invalid => Except.error ()
  | none => Except.ok { st with fs := appendEmptyObject st.fs st.neuropacsConfigPath }

/-- `os.path.getsize(path) == 0` on the abstracted contents. -/
def FileContent.isZeroLength : FileContent → Bool
  | FileContent.empty => true
  | _ => false

/-- `configure_config`: `dirOk` stands for `os.path.isdir(directory)` or a
successful `os.makedirs` (on failure the method returns after an error
display), `writable` for `os.access(directory, os.W_OK)`.  When the file
at `path` exists: a zero-length file goes to `create_config`, otherwise
`load_config` runs and any exception is caught, leaving the state as it
was.  When no file exists at `path`, `create_config` runs. -/
def configure_config (dirOk writable : Bool) (path : String) (st : WState) : WState :=
  if dirOk = false then st
  else if writable = false then st
  else
    match st.fs path with
    | some c =>
        if c.isZeroLength then create_config path st
        else
          match load_config path st with
          | Except.ok st' => st'
          | Except.error _ => st
    | none => create_config path st

/-- `storeNeuropacsOrder(patientId, orderId)`: `map[orderId] = patientId`
followed by `save_config`. -/
def storeNeuropacsOrder (patientId orderId : String) (st : WState) : WState :=
  save_config { st with neuropacsOrderMap := mapStore st.neuropacsOrderMap orderId patientId }

/-- `getNeuropacsOrder(orderId)`: `map.get(orderId, "No order found")`. -/
def getNeuropacsOrder (orderId : String) (st : WState) : String :=
  (mapLookup st.neuropacsOrderMap orderId).getD "No order found"

/-- Result of `npcs.check_status`: `info` and `progress` fields. -/
structure Status where
  info : String
  progress : Int
deriving DecidableEq, Repr

/-- `__extractInfoFromStatus`. -/
def extractInfoFromStatus (s : Status) : String := s.info

/-- `__extractProgressFromStatus`: `str(statusObj['progress']) + '%'`. -/
def extractProgressFromStatus (s : Status) : String := toString s.progress ++ "%"

/-- One populated row of the orders table. -/
structure Row where
  orderId : String
  patientId : String
  info : String
  progress : String
deriving DecidableEq, Repr

/-- The four text cells written for an order at lines 414-417. -/
def mkRow (o p : String) (s : Status) : Row :=
  Row.mk o p (extractInfoFromStatus s) (extractProgressFromStatus s)

/-- `sub` is a leading segment of `s` (over character lists). -/
def leadsChars : List Char → List Char → Bool
  | [], _ => true
  | _ :: _, [] => false
  | c :: cs, d :: ds => c = d && leadsChars cs ds

/-- `sub` occurs somewhere inside `s` (over character lists). -/
def occursIn (sub s : List Char) : Bool :=
  match s with
  | [] => leadsChars sub []
  | _ :: rest => leadsChars sub s || occursIn sub rest

/-- Python `sub in s` on strings: substring membership. -/
def containsSubstr (s sub : String) : Bool := occursIn sub.toList s.toList

/-- A `check_status` outcome whose exception message contains
`"Bucket not found"` — the expiry signal tested at line 386. -/
def isBucketNotFound (r : Except String Status) : Bool :=
  match r with
  | Except.error e => containsSubstr e "Bucket not found"
  | Except.ok _ => false

/-- `__deleteExpiredOrders(expired)`: delete each listed id that is in the
map, then one `save_config`. -/
def deleteExpiredOrders (expired : List String) (st : WState) : WState :=
  save_config
    { st with
      neuropacsOrderMap := expired.foldl (fun m e => mapErase m e) st.neuropacsOrderMap }

/-- The `for order in self.neuropacsOrderMap` loop of `populateOrderTable`.
`lastStatus` is the Python local `status`, which keeps its value from the
previous iteration.  On `check_status` failure whose message contains
`"Bucket not found"` the order goes to `exp` and the loop continues; on any
other failure control falls through to `__extractInfoFromStatus(status)`:
when `status` was never bound this raises `UnboundLocalError`
(`Except.error`), otherwise the stale previous status is rendered for this
order.  Accumulators are kept reversed and flipped at the end. -/
def populateLoop (checkStatus : String → Except String Status) :
    List (String × String) → Option Status → List Row → List String →
    Except Unit (List Row × List String)
  | [], _, rows, exp => Except.ok (rows.reverse, exp.reverse)
  | (o, p) :: rest, lastStatus, rows, exp =>
    match checkStatus o with
    | Except.ok s => populateLoop checkStatus rest (some s) (mkRow o p s :: rows) exp
    | Except.error e =>
        if containsSubstr e "Bucket not found" then
          populateLoop checkStatus rest lastStatus rows (o :: exp)
        else
          match lastStatus with
          | none => Except.error ()
          | some s => populateLoop checkStatus rest (some s) (mkRow o p s :: rows) exp

/-- `populateOrderTable`: run the loop over the tracked orders, then sweep
the collected expired ids via `__deleteExpiredOrders`.  An unhandled
exception in the loop propagates before the sweep runs, so no state change
happens in that case (the only ledger mutation of the method is the sweep
at line 432). -/
def populateOrderTable (checkStatus : String → Except String Status) (st : WState) :
    Except Unit (List Row × WState) :=
  match populateLoop checkStatus st.neuropacsOrderMap none [] [] with
  | Except.error _ => Except.error ()
  | Except.ok (rows, exp) => Except.ok (rows, deleteExpiredOrders exp st)

/-- `__deleteOrder(order_id)`: delete the entry if present, `save_config`,
then re-render via `populateOrderTable`; every exception raised inside is
caught (lines 351-352), so a failing re-render leaves the state as of the
save. -/
def deleteOrder (checkStatus : String → Except String Status) (orderId : String)
    (st : WState) : WState :=
  let st1 := save_config { st with neuropacsOrderMap := mapErase st.neuropacsOrderMap orderId }
  match populateOrderTable checkStatus st1 with
  | Except.ok (_, st2) => st2
  | Except.error _ => st1

/-- Entry count of a persisted document, when it parses as a flat object. -/
def docEntryCount : Option FileContent → Option Nat
  | some (FileContent.valid l) => some l.length
  | _ => none

theorem mapLookup_mapStore_self (m : List (String × String)) (k v : String) :
    mapLookup (mapStore m k v) k = some v := by
  induction m with
  | nil => simp [mapStore, mapLookup]
  | cons hd tl ih =>
      obtain ⟨k', v'⟩ := hd
      by_cases h : k' = k
      · simp [mapStore, h, mapLookup]
      · simp [mapStore, h, mapLookup, ih]

theorem mapLookup_mapStore_ne (m : List (String × String)) (k v k' : String)
    (h : k' ≠ k) : mapLookup (mapStore m k v) k' = mapLookup m k' := by
  have h' : ¬ k = k' := fun hh => h hh.symm
  induction m with
  | nil => simp [mapStore, mapLookup, h']
  | cons hd tl ih =>
      obtain ⟨k0, v0⟩ := hd
      by_cases h0 : k0 = k
      · subst h0
        simp [mapStore, mapLookup, h']
      · simp [mapStore, h0, mapLookup, ih]

theorem mapLookup_mapErase_self (m : List (String × String)) (k : String) :
    mapLookup (mapErase m k) k = none := by
  induction m with
  | nil => simp [mapErase, mapLookup]
  | cons hd tl ih =>
      obtain ⟨k0, v0⟩ := hd
      by_cases h0 : k0 = k
      · simpa [mapErase, h0] using ih
      · simpa [mapErase, mapLookup, h0] using ih

theorem mapLookup_mapErase_ne (m : List (String × String)) (k k' : String)
    (h : k' ≠ k) : mapLookup (mapErase m k) k' = mapLookup m k' := by
  have h' : ¬ k = k' := fun hh => h hh.symm
  induction m with
  | nil => simp [mapErase, mapLookup]
  | cons hd tl ih =>
      obtain ⟨k0, v0⟩ := hd
      by_cases h0 : k0 = k
      · subst h0
        simpa [mapErase, mapLookup, h'] using ih
      · by_cases h1 : k0 = k'
        · simp [mapErase, mapLookup, h0, h1, h]
        · simpa [mapErase, mapLookup, h0, h1] using ih

theorem mapLookup_mapErase_none (m : List (String × String)) (j k : String)
    (h : mapLookup m k = none) : mapLookup (mapErase m j) k = none := by
  by_cases hj : k = j
  · subst hj
    exact mapLookup_mapErase_self m k
  · rw [mapLookup_mapErase_ne m j k hj]
    exact h

theorem mapErase_of_absent (m : List (String × String)) (k : String)
    (h : mapLookup m k = none) : mapErase m k = m := by
  induction m with
  | nil => rfl
  | cons hd tl ih =>
      obtain ⟨k0, v0⟩ := hd
      by_cases h0 : k0 = k
      · simp [mapLookup, h0] at h
      · simp only [mapLookup, if_neg h0] at h
        simp [mapErase, h0] at ih ⊢
        exact ih h

theorem foldErase_lookup_none (expired : List String) (m : List (String × String))
    (k : String) (h : mapLookup m k = none) :
    mapLookup (expired.foldl (fun m e => mapErase m e) m) k = none := by
  induction expired generalizing m with
  | nil => exact h
  | cons e tl ih => exact ih (mapErase m e) (mapLookup_mapErase_none m e k h)

theorem foldErase_lookup_mem (expired : List String) (m : List (String × String))
    (k : String) (h : k ∈ expired) :
    mapLookup (expired.foldl (fun m e => mapErase m e) m) k = none := by
  induction expired generalizing m with
  | nil => cases h
  | cons e tl ih =>
      by_cases he : k = e
      · subst he
        exact foldErase_lookup_none tl (mapErase m k) k (mapLookup_mapErase_self m k)
      · exact ih (mapErase m e) (by simpa [he] using h)

theorem foldErase_lookup_notMem (expired : List String) (m : List (String × String))
    (k : String) (h : k ∉ expired) :
    mapLookup (expired.foldl (fun m e => mapErase m e) m) k = mapLookup m k := by
  induction expired generalizing m with
  | nil => rfl
  | cons e tl ih =>
      have hk : k ≠ e := fun hh => h (by simp [hh])
      have htl : k ∉ tl := fun hh => h (by simp [hh])
      rw [List.foldl_cons, ih (mapErase m e) htl, mapLookup_mapErase_ne m e k hk]

theorem save_config_sync (st : WState) :
    (save_config st).fs (save_config st).neuropacsConfigPath
      = some (FileContent.valid (save_config st).neuropacsOrderMap) := by
  simp [save_config, fsWrite]

theorem populateLoop_ok_exp (cs : String → Except String Status)
    (m : List (String × String))
    (hm : ∀ kv ∈ m, isBucketNotFound (cs kv.1) = false) :
    ∀ last rows exp rows' exp',
      populateLoop cs m last rows exp = Except.ok (rows', exp') → exp' = exp.reverse := by
  induction m with
  | nil =>
      intro last rows exp rows' exp' h
      simp [populateLoop] at h
      exact h.2.symm
  | cons hd tl ih =>
      obtain ⟨o, p⟩ := hd
      intro last rows exp rows' exp' h
      have hb : isBucketNotFound (cs o) = false := hm (o, p) (by simp)
      have htl : ∀ kv ∈ tl, isBucketNotFound (cs kv.1) = false :=
        fun kv hkv => hm kv (by simp [hkv])
      cases hcs : cs o with
      | ok s =>
          simp only [populateLoop, hcs] at h
          exact ih htl (some s) (mkRow o p s :: rows) exp rows' exp' h
      | error e =>
          rw [hcs] at hb
          have hb' : containsSubstr e "Bucket not found" = false := by
            simpa [isBucketNotFound] using hb
          simp only [populateLoop, hcs, hb', Bool.false_eq_true, if_false] at h
          cases last with
          | none => simp at h
          | some s => exact ih htl (some s) (mkRow o p s :: rows) exp rows' exp' h

theorem deleteExpiredOrders_map (expired : List String) (st : WState) :
    (deleteExpiredOrders expired st).neuropacsOrderMap
      = expired.foldl (fun m e => mapErase m e) st.neuropacsOrderMap := rfl

theorem deleteExpiredOrders_saveCount (expired : List String) (st : WState) :
    (deleteExpiredOrders expired st).saveCount = st.saveCount + 1 := rfl

theorem deleteOrder_map (cs : String → Except String Status) (st : WState) (orderId : String)
    (hcs : ∀ kv ∈ mapErase st.neuropacsOrderMap orderId, isBucketNotFound (cs kv.1) = false) :
    (deleteOrder cs orderId st).neuropacsOrderMap = mapErase st.neuropacsOrderMap orderId := by
  rcases hloop : populateLoop cs (mapErase st.neuropacsOrderMap orderId) none [] []
    with u | ⟨rows, exp⟩
  · simp [deleteOrder, populateOrderTable, save_config, hloop]
  · have hexp : exp = [] := by
      simpa using
        populateLoop_ok_exp cs (mapErase st.neuropacsOrderMap orderId) hcs
          none [] [] rows exp hloop
    subst hexp
    simp [deleteOrder, populateOrderTable, save_config, hloop, deleteExpiredOrders]

theorem deleteOrder_sync (cs : String → Except String Status) (orderId : String)
    (st : WState) :
    (deleteOrder cs orderId st).fs (deleteOrder cs orderId st).neuropacsConfigPath
      = some (FileContent.valid (deleteOrder cs orderId st).neuropacsOrderMap) := by
  rcases hloop : populateLoop cs (mapErase st.neuropacsOrderMap orderId) none [] []
    with u | ⟨rows, exp⟩ <;>
    simp [deleteOrder, populateOrderTable, save_config, hloop, deleteExpiredOrders, fsWrite]

theorem deleteOrder_configPath (cs : String → Except String Status) (orderId : String)
    (st : WState) :
    (deleteOrder cs orderId st).neuropacsConfigPath = st.neuropacsConfigPath := by
  rcases hloop : populateLoop cs (mapErase st.neuropacsOrderMap orderId) none [] []
    with u | ⟨rows, exp⟩ <;>
    simp [deleteOrder, populateOrderTable, save_config, hloop, deleteExpiredOrders]

/-- Empty filesystem: no file exists at any path. -/
def fsEmpty : FS := fun _ => none

/-- Status oracle for the mixed-failure refresh: the query for `X` raises
the storage-missing message, every other query raises a network error. -/
def cs1 : String → Except String Status := fun o =>
  if o = "X" then Except.error "Bucket not found"
  else Except.error "network timeout"

/-- Two tracked orders `X` and `Z`, persisted document in sync. -/
def st1 : WState :=
  WState.mk [("X", "pX"), ("Z", "pZ")] "cfg"
    (fsWrite fsEmpty "cfg" (FileContent.valid [("X", "pX"), ("Z", "pZ")])) 0

/-- Status oracle where `W` succeeds and every other query raises a
network error. -/
def cs1b : String → Except String Status := fun o =>
  if o = "W" then Except.ok (Status.mk "done" 100)
  else Except.error "network timeout"

/-- Two tracked orders `W` and `Z`, persisted document in sync. -/
def st1b : WState :=
  WState.mk [("W", "pW"), ("Z", "pZ")] "cfg"
    (fsWrite fsEmpty "cfg" (FileContent.valid [("W", "pW"), ("Z", "pZ")])) 0

/-- C1: at the failing input, the code diverges from the claim.  With `X`
expiring (storage-missing message) and `Z` failing with a network error,
the loop falls through the except branch with the Python local `status`
never bound, raising `UnboundLocalError`; the refresh aborts before the
sweep at line 432 runs, so `X` (still tracked, third conjunct) is never
removed from the ledger even though its query reported missing backing
storage.  When some earlier query succeeded (`W`), a later network-error
row (`Z`) is silently rendered with the stale previous status instead of
the failure being reported. -/
theorem refresh_mixed_failure_behavior :
    populateOrderTable cs1 st1 = Except.error () ∧
    (populateOrderTable cs1b st1b).toOption.map Prod.fst
      = some [mkRow "W" "pW" (Status.mk "done" 100),
              mkRow "Z" "pZ" (Status.mk "done" 100)] ∧
    mapLookup st1.neuropacsOrderMap "X" = some "pX" := by
  refine ⟨rfl, ?_, by decide⟩
  decide

/-- Widget state before a load from a path with no file: empty map, empty
filesystem. -/
def st2c : WState := WState.mk [] "cfg" fsEmpty 0

/-- C2 counterexample: loading from a nonexistent path does not produce an
empty ledger, nor a file containing an empty object — `create_config`
writes the default `TEST` document and installs it as the map. -/
theorem load_missing_counterexample :
    ¬ ((configure_config true true "cfg" st2c).neuropacsOrderMap = [] ∧
       (configure_config true true "cfg" st2c).fs "cfg"
         = some (FileContent.valid [])) := by
  decide

/-- C2 amended: for every path at which no file exists (with an existing
writable parent directory), the load operation creates a file containing
the default object mapping `TEST` to `TEST`, and the resulting in-memory
ledger consists of exactly that entry. -/
theorem load_missing_creates_default (st : WState) (path : String)
    (h : st.fs path = none) :
    (configure_config true true path st).neuropacsOrderMap = [("TEST", "TEST")] ∧
    (configure_config true true path st).fs path
      = some (FileContent.valid [("TEST", "TEST")]) := by
  simp [configure_config, h, create_config, fsWrite]

/-- Witness for the amended C2 at the concrete empty filesystem. -/
theorem load_missing_creates_default_witness :
    (configure_config true true "cfg" st2c).neuropacsOrderMap = [("TEST", "TEST")] ∧
    (configure_config true true "cfg" st2c).fs "cfg"
      = some (FileContent.valid [("TEST", "TEST")]) :=
  load_missing_creates_default st2c "cfg" rfl

/-- Widget state whose config path holds a zero-length file. -/
def st3c : WState := WState.mk [] "cfg" (fsWrite fsEmpty "cfg" FileContent.empty) 0

/-- Widget state with a nonempty map whose config path holds an invalid
document. -/
def st3b : WState :=
  WState.mk [("a", "b")] "cfg" (fsWrite fsEmpty "cfg" FileContent.invalid) 0

/-- C3 counterexample: a zero-length file is immediately rewritten (to the
default `TEST` document) and the resulting ledger is not empty; moreover,
on an invalid document the load keeps the previous — possibly nonempty —
map rather than yielding an empty ledger. -/
theorem load_empty_or_invalid_counterexample :
    (¬ ((configure_config true true "cfg" st3c).neuropacsOrderMap = [] ∧
        (configure_config true true "cfg" st3c).fs "cfg" = some FileContent.empty)) ∧
    (configure_config true true "cfg" st3b).neuropacsOrderMap ≠ [] := by
  decide

/-- C3 amended: if the file exists with nonzero length but invalid
structured data, the load leaves the whole state unchanged — the in-memory
ledger keeps its previous value (hence stays empty when it was empty) and
the file is not rewritten; if the file exists but is zero-length, the load
immediately re-initializes it to the default `TEST` document and the
ledger becomes that default. -/
theorem load_empty_rewrites_invalid_keeps (st : WState) (path : String) :
    (st.fs path = some FileContent.invalid →
        configure_config true true path st = st) ∧
    (st.fs path = some FileContent.empty →
        (configure_config true true path st).neuropacsOrderMap = [("TEST", "TEST")] ∧
        (configure_config true true path st).fs path
          = some (FileContent.valid [("TEST", "TEST")])) := by
  constructor
  · intro h
    simp [configure_config, h, FileContent.isZeroLength, load_config]
  · intro h
    simp [configure_config, h, FileContent.isZeroLength, create_config, fsWrite]

/-- Witness for the amended C3 at the two concrete states. -/
theorem load_empty_rewrites_invalid_keeps_witness :
    configure_config true true "cfg" st3b = st3b ∧
    (configure_config true true "cfg" st3c).neuropacsOrderMap = [("TEST", "TEST")] :=
  ⟨(load_empty_rewrites_invalid_keeps st3b "cfg").1 (by decide),
   ((load_empty_rewrites_invalid_keeps st3c "cfg").2 (by decide)).1⟩

/-- C4: after each ledger mutation — add (`storeNeuropacsOrder`), remove
(`__deleteOrder`), sweep (`__deleteExpiredOrders`) — the document persisted
at the config path is exactly the serialization of the full in-memory map:
each mutation ends in a `save_config` of the whole map. -/
theorem mutation_write_through (st : WState) (patientId orderId : String)
    (cs : String → Except String Status) (removeId : String)
    (expired : List String) :
    ((storeNeuropacsOrder patientId orderId st).fs
        (storeNeuropacsOrder patientId orderId st).neuropacsConfigPath
      = some (FileContent.valid
          (storeNeuropacsOrder patientId orderId st).neuropacsOrderMap)) ∧
    ((deleteOrder cs removeId st).fs (deleteOrder cs removeId st).neuropacsConfigPath
      = some (FileContent.valid (deleteOrder cs removeId st).neuropacsOrderMap)) ∧
    ((deleteExpiredOrders expired st).fs
        (deleteExpiredOrders expired st).neuropacsConfigPath
      = some (FileContent.valid (deleteExpiredOrders expired st).neuropacsOrderMap)) :=
  ⟨save_config_sync _, deleteOrder_sync cs removeId st, save_config_sync _⟩

/-- C5: the add operation maps `orderId` to the new `subjectId` — inserting
when absent, silently overwriting when present — and leaves every other
key's association unchanged. -/
theorem add_inserts_or_overwrites (st : WState) (orderId subjectId : String) :
    mapLookup (storeNeuropacsOrder subjectId orderId st).neuropacsOrderMap orderId
      = some subjectId ∧
    ∀ k, k ≠ orderId →
      mapLookup (storeNeuropacsOrder subjectId orderId st).neuropacsOrderMap k
        = mapLookup st.neuropacsOrderMap k := by
  constructor
  · exact mapLookup_mapStore_self st.neuropacsOrderMap orderId subjectId
  · intro k hk
    exact mapLookup_mapStore_ne st.neuropacsOrderMap orderId subjectId k hk

/-- State with an existing association for `o1` and an unrelated entry. -/
def st5 : WState := WState.mk [("o1", "p1"), ("keep", "v")] "cfg" fsEmpty 0

/-- Witness for C5: overwriting `o1` replaces `p1` by `p2` and leaves
`keep` untouched. -/
theorem add_inserts_or_overwrites_witness :
    mapLookup (storeNeuropacsOrder "p2" "o1" st5).neuropacsOrderMap "o1" = some "p2" ∧
    mapLookup (storeNeuropacsOrder "p2" "o1" st5).neuropacsOrderMap "keep" = some "v" :=
  ⟨(add_inserts_or_overwrites st5 "o1" "p2").1,
   by rw [(add_inserts_or_overwrites st5 "o1" "p2").2 "keep" (by decide)]; decide⟩

/-- Status oracle that always succeeds (no expiry signals). -/
def cs6 : String → Except String Status := fun _ => Except.ok (Status.mk "run" 50)

/-- State with one tracked order, persisted document in sync. -/
def st6 : WState :=
  WState.mk [("a", "b")] "cfg" (fsWrite fsEmpty "cfg" (FileContent.valid [("a", "b")])) 0

/-- C6: `__deleteOrder` never raises (every exception is caught at lines
351-352; the embedding is a total function).  Provided the re-render's
status queries report no expiry for the remaining orders and the persisted
document was in sync: removing an absent `orderId` leaves the map
unchanged and the persisted document's entry count unchanged, and removing
a present `orderId` deletes exactly that entry. -/
theorem remove_absent_noop_present_erases (cs : String → Except String Status)
    (st : WState) (orderId : String)
    (hcs : ∀ kv ∈ mapErase st.neuropacsOrderMap orderId,
        isBucketNotFound (cs kv.1) = false)
    (hsync : st.fs st.neuropacsConfigPath
        = some (FileContent.valid st.neuropacsOrderMap)) :
    (mapLookup st.neuropacsOrderMap orderId = none →
        (deleteOrder cs orderId st).neuropacsOrderMap = st.neuropacsOrderMap ∧
        docEntryCount ((deleteOrder cs orderId st).fs
            (deleteOrder cs orderId st).neuropacsConfigPath)
          = docEntryCount (st.fs st.neuropacsConfigPath)) ∧
    (mapLookup st.neuropacsOrderMap orderId ≠ none →
        (deleteOrder cs orderId st).neuropacsOrderMap
            = mapErase st.neuropacsOrderMap orderId ∧
        mapLookup (deleteOrder cs orderId st).neuropacsOrderMap orderId = none ∧
        ∀ k, k ≠ orderId →
          mapLookup (deleteOrder cs orderId st).neuropacsOrderMap k
            = mapLookup st.neuropacsOrderMap k) := by
  have hmap := deleteOrder_map cs st orderId hcs
  constructor
  · intro habs
    have herase : mapErase st.neuropacsOrderMap orderId = st.neuropacsOrderMap :=
      mapErase_of_absent st.neuropacsOrderMap orderId habs
    have hm : (deleteOrder cs orderId st).neuropacsOrderMap = st.neuropacsOrderMap := by
      rw [hmap, herase]
    refine ⟨hm, ?_⟩
    rw [deleteOrder_sync cs orderId st, hsync, hm]
  · intro _
    refine ⟨hmap, ?_, ?_⟩
    · rw [hmap]
      exact mapLookup_mapErase_self _ _
    · intro k hk
      rw [hmap]
      exact mapLookup_mapErase_ne _ _ _ hk

/-- Witness for C6: removing the absent id `zz` changes neither the map
nor the persisted entry count; removing the present id `a` erases it. -/
theorem remove_absent_noop_present_erases_witness :
    ((deleteOrder cs6 "zz" st6).neuropacsOrderMap = st6.neuropacsOrderMap ∧
      docEntryCount ((deleteOrder cs6 "zz" st6).fs
          (deleteOrder cs6 "zz" st6).neuropacsConfigPath)
        = docEntryCount (st6.fs st6.neuropacsConfigPath)) ∧
    (deleteOrder cs6 "a" st6).neuropacsOrderMap = mapErase st6.neuropacsOrderMap "a" :=
  ⟨(remove_absent_noop_present_erases cs6 st6 "zz" (by decide) (by decide)).1 (by decide),
   ((remove_absent_noop_present_erases cs6 st6 "a" (by decide) (by decide)).2
      (by decide)).1⟩

/-- C7: the sweep removes every expired id that is present, leaves every
key outside the expired list bound to its previous subject, and performs
exactly one persistence write (a single `save_config` after the loop). -/
theorem sweep_removes_present_one_save (st : WState) (expired : List String) :
    (deleteExpiredOrders expired st).saveCount = st.saveCount + 1 ∧
    (∀ k, k ∈ expired →
        mapLookup (deleteExpiredOrders expired st).neuropacsOrderMap k = none) ∧
    (∀ k, k ∉ expired →
        mapLookup (deleteExpiredOrders expired st).neuropacsOrderMap k
          = mapLookup st.neuropacsOrderMap k) := by
  refine ⟨deleteExpiredOrders_saveCount expired st, ?_, ?_⟩
  · intro k hk
    rw [deleteExpiredOrders_map]
    exact foldErase_lookup_mem expired st.neuropacsOrderMap k hk
  · intro k hk
    rw [deleteExpiredOrders_map]
    exact foldErase_lookup_notMem expired st.neuropacsOrderMap k hk

/-- State with two tracked orders for the sweep witness. -/
def st7 : WState :=
  WState.mk [("a", "1"), ("b", "2")] "cfg"
    (fsWrite fsEmpty "cfg" (FileContent.valid [("a", "1"), ("b", "2")])) 0

/-- Witness for C7: sweeping the mixed list of present `a` and absent `x`
removes only `a`, keeps `b`, and performs exactly one save. -/
theorem sweep_removes_present_one_save_witness :
    (deleteExpiredOrders ["a", "x"] st7).saveCount = 1 ∧
    mapLookup (deleteExpiredOrders ["a", "x"] st7).neuropacsOrderMap "a" = none ∧
    mapLookup (deleteExpiredOrders ["a", "x"] st7).neuropacsOrderMap "b" = some "2" := by
  obtain ⟨h1, h2, h3⟩ := sweep_removes_present_one_save st7 ["a", "x"]
  exact ⟨h1, h2 "a" (by decide), by rw [h3 "b" (by decide)]; decide⟩

/-- C8: loading from a path holding a document that parses as a flat
string-to-string object installs exactly that mapping, verbatim. -/
theorem load_valid_verbatim (st : WState) (path : String)
    (entries : List (String × String))
    (h : st.fs path = some (FileContent.valid entries)) :
    load_config path st = Except.ok { st with neuropacsOrderMap := entries } := by
  simp [load_config, h]

/-- State whose config path holds the two-entry document of the claim. -/
def st8 : WState :=
  WState.mk [] "cfg"
    (fsWrite fsEmpty "cfg" (FileContent.valid [("o1", "p1"), ("o2", "p2")])) 0

/-- Witness for C8: loading the `o1, o2` document yields exactly those two
associations. -/
theorem load_valid_verbatim_witness :
    load_config "cfg" st8
      = Except.ok { st8 with neuropacsOrderMap := [("o1", "p1"), ("o2", "p2")] } ∧
    [("o1", "p1"), ("o2", "p2")].length = 2 :=
  ⟨load_valid_verbatim st8 "cfg" [("o1", "p1"), ("o2", "p2")] (by decide), rfl⟩

/-- C9: add followed by a load from the same path into a fresh instance
sharing the filesystem recovers the added entry (round-trip persistence
through the `save_config` / `load_config` pair). -/
theorem add_load_roundtrip (st : WState) (orderId subjectId : String)
    (fresh : WState)
    (hfs : fresh.fs = (storeNeuropacsOrder subjectId orderId st).fs) :
    ∃ st2, load_config st.neuropacsConfigPath fresh = Except.ok st2 ∧
      mapLookup st2.neuropacsOrderMap orderId = some subjectId := by
  refine ⟨{ fresh with
            neuropacsOrderMap := mapStore st.neuropacsOrderMap orderId subjectId },
          ?_, ?_⟩
  · have hv : fresh.fs st.neuropacsConfigPath
        = some (FileContent.valid (mapStore st.neuropacsOrderMap orderId subjectId)) := by
      rw [hfs]
      simp [storeNeuropacsOrder, save_config, fsWrite]
    simp [load_config, hv]
  · exact mapLookup_mapStore_self st.neuropacsOrderMap orderId subjectId

/-- Session state before the round-trip witness. -/
def st9 : WState := WState.mk [] "cfg" fsEmpty 0

/-- A fresh instance (empty map) over the filesystem left by the add. -/
def fresh9 : WState := WState.mk [] "cfg" ((storeNeuropacsOrder "Alice" "j1" st9).fs) 0

/-- Witness for C9 at `add("j1", "Alice")`. -/
theorem add_load_roundtrip_witness :
    ∃ st2, load_config "cfg" fresh9 = Except.ok st2 ∧
      mapLookup st2.neuropacsOrderMap "j1" = some "Alice" :=
  add_load_roundtrip st9 "j1" "Alice" fresh9 rfl

/-- C10: looking up an absent `orderId` returns the literal string
`"No order found"` (the `dict.get` default — no exception, no null), so an
absent key is observationally identical to a key whose subject genuinely
is the string `"No order found"`. -/
theorem lookup_absent_sentinel (st : WState) (orderId : String)
    (h : mapLookup st.neuropacsOrderMap orderId = none) :
    getNeuropacsOrder orderId st = "No order found" ∧
    getNeuropacsOrder orderId st
      = getNeuropacsOrder orderId
          { st with neuropacsOrderMap :=
              mapStore st.neuropacsOrderMap orderId "No order found" } := by
  have h1 : getNeuropacsOrder orderId st = "No order found" := by
    simp [getNeuropacsOrder, h]
  refine ⟨h1, ?_⟩
  rw [h1]
  simp [getNeuropacsOrder, mapLookup_mapStore_self]

/-- State with one unrelated tracked order for the lookup witness. -/
def st10 : WState := WState.mk [("o1", "p1")] "cfg" fsEmpty 0

/-- Witness for C10 at the absent id `zz`. -/
theorem lookup_absent_sentinel_witness :
    getNeuropacsOrder "zz" st10 = "No order found" ∧
    getNeuropacsOrder "zz" st10
      = getNeuropacsOrder "zz"
          { st10 with neuropacsOrderMap :=
              mapStore st10.neuropacsOrderMap "zz" "No order found" } :=
  lookup_absent_sentinel st10 "zz" (by decide)

end Neuropacs
